import Mathlib

/-!
Verification of the kubedesk-helper session-and-proxy engine.

This file shallowly embeds the Go source of the helper daemon:

* cluster identity (`ComputeHash`, `ValidateHash`, the in-memory registry)
  from internal/cluster;
* the deterministic port allocator (`assignPortForCluster`, `hexCharToInt`)
  from internal/api/proxy.go;
* the shell context injector (`injectKubectlContext`) from
  internal/api/shell.go;
* the proxy start handler, the reverse-proxy router, the stop handlers and
  the synchronous exec decision logic from internal/api.

Pure Go functions become Lean functions over `Nat`, `Int`, `String` and
`List`; 32-bit arithmetic is `Nat` with explicit reduction modulo 2^32.
SHA-256 (Go crypto/sha256) is implemented in full so that every definition
is executable.
-/

/-! ## 32-bit word arithmetic for SHA-256 -/

/-- Reduce a natural number to a 32-bit word. -/
def m32 (n : Nat) : Nat := n % 4294967296

/-- Rotate a 32-bit word right by `k` bits (0 < k < 32). -/
def rotr (k n : Nat) : Nat := (n >>> k) + (n % (2 ^ k)) * 2 ^ (32 - k)

/-- Bitwise complement of a 32-bit word. -/
def compl32 (n : Nat) : Nat := n ^^^ 4294967295

/-- SHA-256 big sigma 0. -/
def bsig0 (x : Nat) : Nat := rotr 2 x ^^^ rotr 13 x ^^^ rotr 22 x

/-- SHA-256 big sigma 1. -/
def bsig1 (x : Nat) : Nat := rotr 6 x ^^^ rotr 11 x ^^^ rotr 25 x

/-- SHA-256 small sigma 0. -/
def ssig0 (x : Nat) : Nat := rotr 7 x ^^^ rotr 18 x ^^^ (x >>> 3)

/-- SHA-256 small sigma 1. -/
def ssig1 (x : Nat) : Nat := rotr 17 x ^^^ rotr 19 x ^^^ (x >>> 10)

/-- SHA-256 choice function. -/
def chF (x y z : Nat) : Nat := (x &&& y) ^^^ (compl32 x &&& z)

/-- SHA-256 majority function. -/
def majF (x y z : Nat) : Nat := (x &&& y) ^^^ (x &&& z) ^^^ (y &&& z)

/-! ## SHA-256 core -/

/-- The 64 SHA-256 round constants of FIPS 180-4 (written in decimal). -/
def shaK : List Nat :=
  [1116352408, 1899447441, 3049323471, 3921009573,
   961987163, 1508970993, 2453635748, 2870763221,
   3624381080, 310598401, 607225278, 1426881987,
   1925078388, 2162078206, 2614888103, 3248222580,
   3835390401, 4022224774, 264347078, 604807628,
   770255983, 1249150122, 1555081692, 1996064986,
   2554220882, 2821834349, 2952996808, 3210313671,
   3336571891, 3584528711, 113926993, 338241895,
   666307205, 773529912, 1294757372, 1396182291,
   1695183700, 1986661051, 2177026350, 2456956037,
   2730485921, 2820302411, 3259730800, 3345764771,
   3516065817, 3600352804, 4094571909, 275423344,
   430227734, 506948616, 659060556, 883997877,
   958139571, 1322822218, 1537002063, 1747873779,
   1955562222, 2024104815, 2227730452, 2361852424,
   2428436474, 2756734187, 3204031479, 3329325298]

/-- The running SHA-256 state: eight 32-bit words. -/
structure Sha8 where
  a : Nat
  b : Nat
  c : Nat
  d : Nat
  e : Nat
  f : Nat
  g : Nat
  h : Nat
deriving Repr, DecidableEq

/-- The SHA-256 initial hash value of FIPS 180-4 (written in decimal). -/
def shaH0 : Sha8 :=
  ⟨1779033703, 3144134277, 1013904242, 2773480762,
   1359893119, 2600822924, 528734635, 1541459225⟩

/-- One SHA-256 round, consuming one round constant and one schedule word. -/
def shaRound (s : Sha8) (kw : Nat × Nat) : Sha8 :=
  let t1 := s.h + bsig1 s.e + chF s.e s.f s.g + kw.1 + kw.2
  let t2 := bsig0 s.a + majF s.a s.b s.c
  ⟨m32 (t1 + t2), s.a, s.b, s.c, m32 (s.d + t1), s.e, s.f, s.g⟩

/-- Extend the 16 block words (given newest first, reversed) by `n` schedule
words; the SHA-256 message schedule for one block. -/
def extendSchedule : Nat → List Nat → List Nat
  | 0, acc => acc
  | n + 1, acc =>
      let w := m32 (ssig1 (acc.getD 1 0) + acc.getD 6 0 +
                    ssig0 (acc.getD 14 0) + acc.getD 15 0)
      extendSchedule n (w :: acc)

/-- The 64 message-schedule words of a block given as 16 words. -/
def schedule (w16 : List Nat) : List Nat :=
  (extendSchedule 48 w16.reverse).reverse

/-- Compress one 16-word block into the running state. -/
def shaCompress (s : Sha8) (w16 : List Nat) : Sha8 :=
  let t := (shaK.zip (schedule w16)).foldl shaRound s
  ⟨m32 (s.a + t.a), m32 (s.b + t.b), m32 (s.c + t.c), m32 (s.d + t.d),
   m32 (s.e + t.e), m32 (s.f + t.f), m32 (s.g + t.g), m32 (s.h + t.h)⟩

/-- Big-endian bytes of a 32-bit word. -/
def be4 (n : Nat) : List Nat :=
  [n >>> 24 % 256, n >>> 16 % 256, n >>> 8 % 256, n % 256]

/-- Big-endian bytes of a 64-bit length field. -/
def be8 (n : Nat) : List Nat :=
  [n >>> 56 % 256, n >>> 48 % 256, n >>> 40 % 256, n >>> 32 % 256,
   n >>> 24 % 256, n >>> 16 % 256, n >>> 8 % 256, n % 256]

/-- Group a byte list into big-endian 32-bit words (4 bytes each). -/
def wordsOf : List Nat → List Nat
  | b0 :: b1 :: b2 :: b3 :: rest =>
      (((b0 * 256 + b1) * 256 + b2) * 256 + b3) :: wordsOf rest
  | _ => []

/-- SHA-256 padding: append 0x80, zeros to 56 mod 64, and the 64-bit
big-endian bit length. -/
def shaPad (msg : List Nat) : List Nat :=
  let len := msg.length
  let zeros := (120 - (len + 1) % 64) % 64
  msg ++ [0x80] ++ List.replicate zeros 0 ++ be8 (8 * len)

/-- Split a byte list into 64-byte chunks; the fuel argument (instantiated
with the list length, an upper bound on the number of chunks) makes the
recursion structural so that the kernel can evaluate it. -/
def chunksGo : Nat → List Nat → List (List Nat)
  | 0, _ => []
  | _ + 1, [] => []
  | fuel + 1, b :: rest => (b :: rest).take 64 :: chunksGo fuel ((b :: rest).drop 64)

/-- Split a padded byte list into 64-byte chunks. -/
def chunks64 (l : List Nat) : List (List Nat) := chunksGo l.length l

/-- The SHA-256 digest (32 bytes) of a byte list. -/
def sha256 (msg : List Nat) : List Nat :=
  let final := ((chunks64 (shaPad msg)).map wordsOf).foldl shaCompress shaH0
  [final.a, final.b, final.c, final.d,
   final.e, final.f, final.g, final.h].flatMap be4

/-! ## Hex encoding and UTF-8 bytes -/

/-- The lowercase hex digit for a value below 16. -/
def hexDigit (n : Nat) : Char :=
  if n < 10 then Char.ofNat (48 + n) else Char.ofNat (87 + n)

/-- The two lowercase hex characters of one byte, as emitted by the Go
format verb for a byte slice. -/
def byteHex (b : Nat) : List Char := [hexDigit (b / 16 % 16), hexDigit (b % 16)]

/-- UTF-8 encoding of one character, as Go produces when converting a
string to a byte slice. -/
def utf8Char (c : Char) : List Nat :=
  let n := c.toNat
  if n < 128 then [n]
  else if n < 2048 then [192 + n / 64, 128 + n % 64]
  else if n < 65536 then [224 + n / 4096, 128 + n / 64 % 64, 128 + n % 64]
  else [240 + n / 262144, 128 + n / 4096 % 64, 128 + n / 64 % 64, 128 + n % 64]

/-- The UTF-8 bytes of a string. -/
def utf8Bytes (s : String) : List Nat := s.data.flatMap utf8Char

/-- The lowercase hex string of a byte list. -/
def hexOfBytes (bs : List Nat) : List Char := bs.flatMap byteHex

/-! ## Cluster identity (internal/cluster, src/unnamed/part_006 lines 187-219)

`ComputeHash` hashes the string `kubeconfig + ":" + context` with SHA-256
and keeps the first 16 hex characters; both inputs empty give the empty
hash. `ValidateHash` recomputes and compares, accepting the empty/empty
case. -/

/-- ComputeHash from internal/cluster: empty when both inputs are empty,
otherwise the first 16 hex characters of the SHA-256 of
`kubeconfig ++ ":" ++ context`. -/
def ComputeHash (kubeconfig context : String) : String :=
  if kubeconfig = "" ∧ context = "" then ""
  else String.mk ((hexOfBytes (sha256 (utf8Bytes (kubeconfig ++ ":" ++ context)))).take 16)

/-- ValidateHash from internal/cluster: true when both the provided hash and
the recomputed hash are empty, otherwise exact string equality. -/
def ValidateHash (providedHash kubeconfig context : String) : Bool :=
  let expectedHash := ComputeHash kubeconfig context
  if providedHash = "" ∧ expectedHash = "" then true
  else providedHash == expectedHash

/-- GetExpectedHash from internal/cluster. -/
def GetExpectedHash (kubeconfig context : String) : String :=
  ComputeHash kubeconfig context

/-! ## Cluster registry (internal/cluster/registry.go)

The process-wide registry maps a cluster hash to the (kubeconfig, context)
pair it was registered with.  It is embedded as an association list with
the most recent registration first; `Register` on a nonempty hash prepends
(map assignment in Go replaces, and lookup takes the first match, so the
observable behaviour agrees).  The handlers below take the registry as a
read-only input; the idempotent `Register` writes they perform are not
observed by any verified property and are not threaded through. -/

/-- The registry content: (hash, kubeconfig, context) entries. -/
abbrev Registry := List (String × String × String)

/-- Register from internal/cluster/registry.go: no-op on the empty hash. -/
def registryRegister (reg : Registry) (hash kubeconfig context : String) : Registry :=
  if hash = "" then reg else (hash, kubeconfig, context) :: reg

/-- Lookup from internal/cluster/registry.go: nothing for the empty hash,
otherwise the stored (kubeconfig, context) for the hash, if any. -/
def registryLookup (reg : Registry) (hash : String) : Option (String × String) :=
  if hash = "" then none
  else (reg.find? (fun e => e.1 == hash)).map (fun e => (e.2.1, e.2.2))

/-! ## Session store (internal/session/manager.go)

The store is embedded as the list of live sessions in store order.  Only
the fields the embedded handlers read are carried. -/

/-- SessionType from internal/session/manager.go. -/
inductive GoSessionType
  | portForward
  | exec
  | proxy
  | shell
deriving DecidableEq, Repr

/-- SessionStatus from internal/session/manager.go. -/
inductive GoSessionStatus
  | running
  | stopped
  | failed
deriving DecidableEq, Repr

/-- The string form of a session status, as Go casts the typed constant. -/
def statusString : GoSessionStatus → String
  | .running => "running"
  | .stopped => "stopped"
  | .failed => "failed"

/-- The session fields read by the embedded handlers (internal/session
Session struct, restricted to identity, binding and the proxy port). -/
structure GoSession where
  id : String
  sessionType : GoSessionType
  status : GoSessionStatus
  port : Nat
  context : String
  kubeconfig : String
  clusterHash : String
deriving DecidableEq, Repr

/-- List from internal/session/manager.go: all sessions of one type. -/
def managerList (ss : List GoSession) (t : GoSessionType) : List GoSession :=
  ss.filter (fun s => s.sessionType == t)

/-- Get from internal/session/manager.go. -/
def managerGet (ss : List GoSession) (id : String) : Option GoSession :=
  ss.find? (fun s => s.id == id)

/-- Modelled from the spec: FindByClusterHash is declared by section 4.C of
the spec and called by the handlers, but its body is not under src (the
session manager revision in src predates the cluster-hash fields).  Per
the spec it returns the sessions bound to the hash. -/
def FindByClusterHash (ss : List GoSession) (hash : String) : List GoSession :=
  ss.filter (fun s => s.clusterHash == hash)

/-- Modelled from the spec: GetWithClusterValidation is declared by section
4.C of the spec and called by the stop/output handlers, but its body is not
under src.  Per the spec it behaves as Get and additionally returns
not-found when the stored hash differs from the expected hash. -/
def GetWithClusterValidation (ss : List GoSession) (id expectedHash : String) :
    Option GoSession :=
  match managerGet ss id with
  | none => none
  | some s => if s.clusterHash == expectedHash then some s else none

/-- Stop from internal/session/manager.go: a missing id is treated as
already stopped and returns nil; otherwise the process is killed, temp
files are cleaned and the session is deleted.  Returns the new store and
the returned error, which is always nil. -/
def managerStop (ss : List GoSession) (id : String) : List GoSession × Option String :=
  match managerGet ss id with
  | none => (ss, none)
  | some _ => (ss.filter (fun s => s.id != id), none)

/-! ## Port allocator (internal/api/proxy.go lines 306-344, identical in
src/unnamed/part_002 lines 599-637) -/

/-- hexCharToInt from internal/api/proxy.go, on a byte value: the value of
an ASCII hex digit, 0 for every other byte. -/
def hexCharToInt (c : Nat) : Nat :=
  if 48 ≤ c ∧ c ≤ 57 then c - 48
  else if 97 ≤ c ∧ c ≤ 102 then c - 97 + 10
  else if 65 ≤ c ∧ c ≤ 70 then c - 65 + 10
  else 0

/-- assignPortForCluster from internal/api/proxy.go: 8001 for the empty
hash; otherwise the first four bytes of the hash are read as hex digits
into n and the port is 47824 + n mod 10000.  The accumulator is a Go
uint32 but cannot exceed 16^4, so plain Nat arithmetic is exact. -/
def assignPortForCluster (clusterHash : String) : Nat :=
  if clusterHash = "" then 8001
  else
    let hashNum := ((utf8Bytes clusterHash).take 4).foldl
      (fun acc c => acc * 16 + hexCharToInt c) 0
    47824 + hashNum % 10000

/-- The value of a character read as a hex digit (0-9, a-f, A-F in their
usual values); used only by the spec-side restatement of the port
formula, which works on the hash characters rather than its bytes. -/
def specHexVal (c : Char) : Nat :=
  if 48 ≤ c.toNat ∧ c.toNat ≤ 57 then c.toNat - 48
  else if 97 ≤ c.toNat ∧ c.toNat ≤ 102 then c.toNat - 97 + 10
  else if 65 ≤ c.toNat ∧ c.toNat ≤ 70 then c.toNat - 65 + 10
  else 0

/-- The port formula as the spec words it: parse the first four hex
characters of the hash as an unsigned integer n and return
47824 + (n mod 10000); 8001 for the empty hash. -/
def specAssignPort (clusterHash : String) : Nat :=
  if clusterHash = "" then 8001
  else 47824 + ((clusterHash.data.take 4).foldl (fun acc c => acc * 16 + specHexVal c) 0) % 10000

/-! ## Shell context injection (internal/api/shell.go lines 320-349)

The Go code applies the RE2 replacement
ReplaceAllString on the pattern (word boundary)kubectl(word boundary)(\s+)
with template kubectl --context=(ctx)$1, after two early returns: empty
context, or the command already contains the literal substring --context.
The scanner below walks the character list left to right, tracking whether
the previous character is a word character ([0-9A-Za-z_], the RE2 boundary
class); at each position where the previous character is not a word
character and the text starts with kubectl followed by at least one RE2
whitespace character ([\t\n\f\r ]), it rewrites the leftmost-longest match
kubectl(\s+) and continues after it, exactly as ReplaceAllString does with
non-overlapping leftmost matches.  The trailing word boundary of the
pattern is subsumed by the mandatory whitespace.  All pattern characters
are ASCII, so scanning characters instead of bytes is exact. -/

/-- An RE2 word character, the boundary class of the backslash-b assertion. -/
def isWordChar (c : Char) : Bool := c.isAlphanum || c == '_'

/-- An RE2 whitespace character (Go regexp backslash-s). -/
def isGoSpace (c : Char) : Bool :=
  c == ' ' || c == '\t' || c == '\n' || c == Char.ofNat 12 || c == '\r'

/-- Whether the scanner matches the pattern at the current position: the
previous character is not a word character, the text starts with kubectl,
and the character after it is whitespace. -/
def kubectlMatchAt (prevW : Bool) (l : List Char) : Bool :=
  !prevW && List.take 7 l == "kubectl".data &&
    (match l.drop 7 with
     | d :: _ => isGoSpace d
     | [] => false)

/-- The replacement scanner.  The fuel argument (instantiated with the list
length, which bounds the number of steps) makes the recursion structural. -/
def injectGo (context : String) : Nat → Bool → List Char → List Char
  | 0, _, l => l
  | _ + 1, _, [] => []
  | fuel + 1, prevW, c :: rest =>
      if kubectlMatchAt prevW (c :: rest) then
        let sp := ((c :: rest).drop 7).takeWhile isGoSpace
        let tail := ((c :: rest).drop 7).dropWhile isGoSpace
        "kubectl --context=".data ++ context.data ++ sp ++ injectGo context fuel false tail
      else
        c :: injectGo context fuel (isWordChar c) rest

/-- Whether the scanner will rewrite anything: the first position matching
the pattern, tracked with the same state as the scanner. -/
def hasKubectlMatch : Nat → Bool → List Char → Bool
  | 0, _, _ => false
  | _ + 1, _, [] => false
  | fuel + 1, prevW, c :: rest =>
      kubectlMatchAt prevW (c :: rest) || hasKubectlMatch fuel (isWordChar c) rest

/-- Whether one character list occurs inside another (Go strings.Contains;
the needle here is always ASCII, so character-level search is exact). -/
def containsSeq (needle : List Char) : List Char → Bool
  | [] => needle.isPrefixOf []
  | c :: rest => needle.isPrefixOf (c :: rest) || containsSeq needle rest

/-- injectKubectlContext from internal/api/shell.go: unchanged when the
context is empty or the command already mentions --context, otherwise
every kubectl-followed-by-whitespace occurrence at a word boundary is
rewritten to kubectl --context=(ctx) with the whitespace preserved. -/
def injectKubectlContext (command context : String) : String :=
  if context = "" then command
  else if containsSeq "--context".data command.data then command
  else String.mk (injectGo context command.data.length false command.data)

/-! ## Reverse-proxy router (internal/api/proxy_router.go lines 29-171)

Route serves every request to /proxy/(clusterHash)/rest.  The embedding is
the control flow of the handler as a function of the request line and the
session store; the actual HTTP dispatch on the forward branch is external.
src also holds an earlier revision of Route (lines 201-305 of the same
file) without the mismatch skip and the pre-forward re-check; the revision
embedded here is the one the spec describes. -/

/-- Go strings.TrimPrefix: drop the prefix when present, else unchanged
(on the character lists, which for a whole-string prefix agrees with the
byte-level Go operation). -/
def trimPrefixGo (s p : String) : String :=
  if p.data.isPrefixOf s.data then String.mk (s.data.drop p.data.length) else s

/-- The upstream path: the request path with /proxy/(clusterHash) removed,
defaulting to the root path when nothing remains. -/
def routeTargetPath (clusterHash urlPath : String) : String :=
  let t := trimPrefixGo urlPath ("/proxy/" ++ clusterHash)
  if t = "" then "/" else t

/-- The structured 503 body of the router: error, clusterHash, action and
reason fields. -/
structure NoProxyBody where
  error : String
  clusterHash : String
  action : String
  reason : String
deriving DecidableEq, Repr

/-- The structured 403 safety-violation body of the router. -/
structure ForbiddenBody where
  error : String
  requestedHash : String
  sessionHash : String
  reason : String
deriving DecidableEq, Repr

/-- The 503 body the router sends when no running proxy matches. -/
def mk503Body (clusterHash : String) : NoProxyBody :=
  ⟨"No proxy running for this cluster", clusterHash,
   "Call POST /proxy/start with kubeconfig and context to start a new proxy",
   "Helper may have restarted and lost session state"⟩

/-- The 403 body the router sends on the pre-forward hash re-check. -/
def mk403Body (requestedHash sessionHash : String) : ForbiddenBody :=
  ⟨"CRITICAL: Cluster hash mismatch - refusing to forward request",
   requestedHash, sessionHash,
   "Safety check failed - this would return data from wrong cluster"⟩

/-- What the router does with a request: forward upstream to a URL on a
port, refuse with the 503 body, or refuse with the 403 body.  Only the
forward constructor issues an upstream request. -/
inductive RouteResult
  | forward (port : Nat) (url : String)
  | unavailable (body : NoProxyBody)
  | forbidden (body : ForbiddenBody)
deriving DecidableEq, Repr

/-- The selection loop of Route: the first session from FindByClusterHash
that is a running proxy, skipping (continue) any whose stored hash differs
from the requested hash. -/
def selectProxySession (ss : List GoSession) (clusterHash : String) : Option GoSession :=
  (FindByClusterHash ss clusterHash).find?
    (fun s => s.sessionType == .proxy && s.status == .running && s.clusterHash == clusterHash)

/-- Route from internal/api/proxy_router.go: extract the target path,
select a running proxy session for the hash (503 with the structured body
when none), re-check the selected hash immediately before forwarding (403
with the structured body on mismatch), and otherwise forward to
localhost on the session port with the target path and raw query. -/
def routeProxy (ss : List GoSession) (clusterHash urlPath rawQuery : String) : RouteResult :=
  let targetPath := routeTargetPath clusterHash urlPath
  match selectProxySession ss clusterHash with
  | none => .unavailable (mk503Body clusterHash)
  | some s =>
      if s.clusterHash ≠ clusterHash then .forbidden (mk403Body clusterHash s.clusterHash)
      else .forward s.port ("http://localhost:" ++ toString s.port ++ targetPath ++
        (if rawQuery = "" then "" else "?" ++ rawQuery))

/-! ## Proxy start (src/unnamed/part_002 lines 252-503)

src holds three revisions of ProxyHandler.Start; the one embedded is the
latest (strict hash check before registering, context-checked reuse,
always-deterministic port, Verify endpoint alongside), which is the
revision the spec describes; internal/api/proxy.go is an earlier revision
that still honours a caller-chosen port.  The embedding covers the handler
up to the launch decision: the kubectl lookup, the spawn and the readiness
probe are external and only select between a 500 error and the success
response carried by the launched constructor.  The Register calls are
idempotent registry inserts not observed by any verified property. -/

/-- ProxyStartRequest from src/unnamed/part_002. -/
structure ProxyStartRequest where
  port : Int
  kubeconfig : String
  context : String
  clusterHash : String
deriving DecidableEq, Repr

/-- ProxyStartResponse from src/unnamed/part_002. -/
structure ProxyStartResponse where
  sessionId : String
  port : Nat
  clusterHash : String
  status : String
deriving DecidableEq, Repr

/-- The outcome of the proxy start handler: a 400 hash-mismatch rejection,
reuse of an existing session (no session created, no process launched), or
the launch of a new session with the kubectl argument list, the ids of
preempted sessions, and the response returned when the launch succeeds. -/
inductive ProxyStartResult
  | hashMismatch (expected provided : String)
  | reused (s : GoSession) (resp : ProxyStartResponse)
  | launched (sess : GoSession) (args : List String) (preempted : List String)
      (resp : ProxyStartResponse)
deriving DecidableEq, Repr

/-- The hash the handler works with: computed from the body when the
request carries none, else the one provided. -/
def effectiveHash (req : ProxyStartRequest) : String :=
  if req.clusterHash = "" then ComputeHash req.kubeconfig req.context else req.clusterHash

/-- The reuse loop of the proxy start handler: the first result of
FindByClusterHash that is a running proxy session, skipping (continue)
any whose stored context differs from the request context. -/
def findReusableProxy (ss : List GoSession) (hash context : String) : Option GoSession :=
  (FindByClusterHash ss hash).find?
    (fun s => s.sessionType == .proxy && s.status == .running && s.context == context)

/-- Start from src/unnamed/part_002 lines 252-503 (see the section
comment): validate or compute the hash, reuse a running proxy session for
the hash only when its stored context matches, otherwise assign the
deterministic port, preempt sessions of other clusters on it, and launch
kubectl proxy on that port. -/
def proxyStart (req : ProxyStartRequest) (ss : List GoSession) (newId : String) :
    ProxyStartResult :=
  if req.clusterHash ≠ "" ∧ req.clusterHash ≠ ComputeHash req.kubeconfig req.context then
    .hashMismatch (ComputeHash req.kubeconfig req.context) req.clusterHash
  else
    let hash := effectiveHash req
    match findReusableProxy ss hash req.context with
    | some s => .reused s ⟨s.id, s.port, hash, statusString s.status⟩
    | none =>
        let assignedPort := assignPortForCluster hash
        let preempted := ((managerList ss .proxy).filter
          (fun s => s.port == assignedPort && s.clusterHash != hash)).map (fun s => s.id)
        let sess : GoSession :=
          ⟨newId, .proxy, .running, assignedPort, req.context, req.kubeconfig, hash⟩
        let args := ["proxy"] ++
          (if req.context ≠ "" then ["--context", req.context] else []) ++
          ["--port", toString assignedPort]
        .launched sess args preempted ⟨newId, assignedPort, hash, "running"⟩

/-! ## Session-starting handlers with registry resolution

ShellHandler.Start (internal/api/shell.go lines 48-216),
PortForwardHandler.Start (internal/api/port_forward.go lines 59-202) and
the legacy ExecHandler.Start (internal/api/exec.go lines 287-525) are
embedded through their cluster-identity phase up to session creation; the
process launch that follows is external to the store and registry.  All
three resolve a hash-only request through the registry.  -/

/-- ShellStartRequest from internal/api/shell.go. -/
structure ShellStartRequest where
  command : String
  kubeconfig : String
  context : String
  clusterHash : String
deriving DecidableEq, Repr

/-- The outcome of the shell start handler up to session creation.  Every
error constructor is a 400 plain-text rejection with the named message;
started carries the created session and the bash command actually run. -/
inductive ShellStartResult
  | noCommand
  | registryMiss
  | hashMismatch (expected provided : String)
  | validationFailed
  | started (sess : GoSession) (bashCommand : String)
deriving DecidableEq, Repr

/-- The registry-resolution step shared by the shell, port-forward and
legacy exec handlers: a request with only a hash is resolved through the
registry; none signals the registry-miss rejection. -/
def resolveFromRegistry (kubeconfig context clusterHash : String) (reg : Registry) :
    Option (String × String) :=
  if kubeconfig = "" ∧ context = "" ∧ clusterHash ≠ "" then
    match registryLookup reg clusterHash with
    | none => none
    | some kc => some kc
  else some (kubeconfig, context)

/-- Start from internal/api/shell.go: reject an empty command, resolve a
hash-only request through the registry (registry miss is a 400 telling the
caller to resend kubeconfig and context), compute the hash or check the
provided one for exact equality, re-validate with ValidateHash, create the
session and inject the context into the command. -/
def shellStart (req : ShellStartRequest) (reg : Registry) (newId : String) :
    ShellStartResult :=
  if req.command = "" then .noCommand
  else
    match resolveFromRegistry req.kubeconfig req.context req.clusterHash reg with
    | none => .registryMiss
    | some (k, c) =>
        if req.clusterHash ≠ "" ∧ req.clusterHash ≠ ComputeHash k c then
          .hashMismatch (ComputeHash k c) req.clusterHash
        else
          let hash := if req.clusterHash = "" then ComputeHash k c else req.clusterHash
          if ¬ ValidateHash hash k c then .validationFailed
          else
            let command := if c ≠ "" then injectKubectlContext req.command c else req.command
            .started ⟨newId, .shell, .running, 0, c, k, hash⟩ command

/-- PortForwardStartRequest from internal/api/port_forward.go; nspace is
the namespace field (namespace is reserved in Lean). -/
structure PFStartRequest where
  nspace : String
  resourceType : String
  resourceName : String
  servicePort : String
  localPort : String
  kubeconfig : String
  context : String
  clusterHash : String
deriving DecidableEq, Repr

/-- The outcome of the port-forward start handler up to session creation.
The port-forward handler registers a provided hash without the strict
equality check, so a wrong hash surfaces as validationFailed (400). -/
inductive PFStartResult
  | missingFields
  | registryMiss
  | validationFailed
  | started (sess : GoSession) (args : List String)
deriving DecidableEq, Repr

/-- Start from internal/api/port_forward.go: require namespace, resource
name and both ports; default the resource type to pod; resolve a hash-only
request through the registry; compute or register the hash; validate with
ValidateHash; create the session and build the kubectl argument list. -/
def pfStart (req : PFStartRequest) (reg : Registry) (newId : String) : PFStartResult :=
  if req.nspace = "" ∨ req.resourceName = "" ∨ req.servicePort = "" ∨ req.localPort = "" then
    .missingFields
  else
    let rt := if req.resourceType ≠ "service" ∧ req.resourceType ≠ "pod" then "pod"
              else req.resourceType
    match resolveFromRegistry req.kubeconfig req.context req.clusterHash reg with
    | none => .registryMiss
    | some (k, c) =>
        let hash := if req.clusterHash = "" then ComputeHash k c else req.clusterHash
        if ¬ ValidateHash hash k c then .validationFailed
        else
          .started ⟨newId, .portForward, .running, 0, c, k, hash⟩
            (["port-forward"] ++ (if c ≠ "" then ["--context", c] else []) ++
             ["-n", req.nspace, rt ++ "/" ++ req.resourceName,
              req.localPort ++ ":" ++ req.servicePort])

/-- ExecStartRequest from internal/api/exec.go (legacy session API);
nspace is the namespace field. -/
structure ExecStartRequest where
  nspace : String
  podName : String
  container : String
  command : List String
  kubeconfig : String
  context : String
  clusterHash : String
deriving DecidableEq, Repr

/-- The outcome of the legacy exec start handler up to session creation. -/
inductive ExecStartResult
  | missingFields
  | registryMiss
  | hashMismatch (expected provided : String)
  | started (sess : GoSession) (args : List String)
deriving DecidableEq, Repr

/-- Start from internal/api/exec.go (legacy session API): require
namespace, pod and command; resolve a hash-only request through the
registry; compute the hash or check the provided one for exact equality;
create the session and build the kubectl argument list. -/
def execSessionStart (req : ExecStartRequest) (reg : Registry) (newId : String) :
    ExecStartResult :=
  if req.nspace = "" ∨ req.podName = "" ∨ req.command = [] then .missingFields
  else
    match resolveFromRegistry req.kubeconfig req.context req.clusterHash reg with
    | none => .registryMiss
    | some (k, c) =>
        if req.clusterHash ≠ "" ∧ req.clusterHash ≠ ComputeHash k c then
          .hashMismatch (ComputeHash k c) req.clusterHash
        else
          let hash := if req.clusterHash = "" then ComputeHash k c else req.clusterHash
          .started ⟨newId, .exec, .running, 0, c, k, hash⟩
            (["exec", "-i"] ++ (if c ≠ "" then ["--context", c] else []) ++
             ["-n", req.nspace] ++
             (if req.container ≠ "" then ["-c", req.container] else []) ++
             [req.podName, "--"] ++ req.command)

/-! ## Synchronous exec (internal/api/exec.go lines 77-285)

Execute runs kubectl exec under a context deadline and maps the run
outcome to the HTTP response.  The embedding is the response decision as a
function of what CombinedOutput and the context report; the identity phase
is the same strict hash check as in proxyStart and is not repeated here. -/

/-- What CombinedOutput returns as its error, as the handler
distinguishes it: nil, a Go exec.ExitError carrying the exit code the
ProcessState reports, or any other error. -/
inductive GoRunError
  | exitError (code : Int)
  | otherError (msg : String)
deriving DecidableEq, Repr

/-- The observation the handler makes after the child run: the combined
output so far, the error from CombinedOutput, and whether the request
context reports an exceeded deadline. -/
structure RunObservation where
  output : String
  err : Option GoRunError
  deadlineExceeded : Bool
deriving DecidableEq, Repr

/-- The response of the synchronous exec handler: HTTP status plus the
JSON body fields output, exitCode and the optional error. -/
structure ExecHttpResponse where
  status : Nat
  output : String
  exitCode : Int
  error : Option String
deriving DecidableEq, Repr

/-- The effective timeout: the request value, defaulting to 300 seconds. -/
def execTimeoutSeconds (reqTimeout : Nat) : Nat :=
  if reqTimeout = 0 then 300 else reqTimeout

/-- The response decision of Execute from internal/api/exec.go: no error
is 200 with exit code 0; an ExitError is logged and falls through to the
200 response with its exit code and no error field; only a non-ExitError
error is tested against the deadline, giving 504 with exit code -1 on an
exceeded deadline and 500 with exit code -1 otherwise. -/
def execDecision (timeout : Nat) (obs : RunObservation) : ExecHttpResponse :=
  match obs.err with
  | none => ⟨200, obs.output, 0, none⟩
  | some (.exitError code) => ⟨200, obs.output, code, none⟩
  | some (.otherError msg) =>
      if obs.deadlineExceeded then
        ⟨504, obs.output, -1,
         some ("Command timed out after " ++ toString timeout ++ " seconds")⟩
      else ⟨500, obs.output, -1, some msg⟩

/-- What the Go runtime reports when the deadline expires while the child
is still running: exec.CommandContext kills the process group, so
CombinedOutput returns the partial output together with an exec.ExitError
whose ProcessState reports exit code -1 (death by signal), and the request
context reports an exceeded deadline.  CombinedOutput does not replace
that ExitError by the context error. -/
def timeoutObservation (partialOutput : String) : RunObservation :=
  ⟨partialOutput, some (.exitError (-1)), true⟩

/-! ## Stop handlers (internal/api/proxy.go lines 255-284; the shell, exec
and port-forward stop handlers have the same shape) -/

/-- The outcome of a stop handler: 404, 500 with a message, or 200. -/
inductive StopResult
  | notFound
  | serverError (msg : String)
  | ok
deriving DecidableEq, Repr

/-- Stop from internal/api/proxy.go: when a clusterHash query parameter is
present, GetWithClusterValidation must find the session with that hash
(404 otherwise); then Manager.Stop is called, whose error (never set)
would map to 500, and 200 is returned. -/
def proxyStopHandler (ss : List GoSession) (sessionId clusterHashParam : String) :
    StopResult :=
  if clusterHashParam ≠ "" then
    match GetWithClusterValidation ss sessionId clusterHashParam with
    | none => .notFound
    | some _ =>
        match (managerStop ss sessionId).2 with
        | some e => .serverError e
        | none => .ok
  else
    match (managerStop ss sessionId).2 with
    | some e => .serverError e
    | none => .ok

/-! ### Digest-shape lemmas -/

theorem wordsOf_sha_length (s : Sha8) :
    ([s.a, s.b, s.c, s.d, s.e, s.f, s.g, s.h].flatMap be4).length = 32 := by
  simp [be4, List.flatMap]

/-- A SHA-256 digest always has 32 bytes. -/
theorem sha256_length (msg : List Nat) : (sha256 msg).length = 32 := by
  unfold sha256
  exact wordsOf_sha_length _

theorem hexOfBytes_length (bs : List Nat) : (hexOfBytes bs).length = 2 * bs.length := by
  induction bs with
  | nil => simp [hexOfBytes]
  | cons b rest ih =>
      simp only [hexOfBytes, List.flatMap_cons, List.length_append] at *
      simp [byteHex, ih]
      omega

/-- A nonempty input pair always yields a 16-character hash. -/
theorem ComputeHash_length (kubeconfig context : String)
    (h : ¬(kubeconfig = "" ∧ context = "")) :
    (ComputeHash kubeconfig context).length = 16 := by
  unfold ComputeHash
  rw [if_neg h]
  show (List.take 16 _).length = 16
  rw [List.length_take, hexOfBytes_length, sha256_length]
  decide

/-- A nonempty input pair never yields the empty hash. -/
theorem ComputeHash_ne_empty (kubeconfig context : String)
    (h : ¬(kubeconfig = "" ∧ context = "")) :
    ComputeHash kubeconfig context ≠ "" := by
  intro he
  have := ComputeHash_length kubeconfig context h
  rw [he] at this
  simp [String.length] at this

/-- Validating a hash against the very pair it was computed from always
succeeds. -/
theorem ValidateHash_self (kubeconfig context : String) :
    ValidateHash (ComputeHash kubeconfig context) kubeconfig context = true := by
  unfold ValidateHash
  by_cases h : ComputeHash kubeconfig context = "" ∧ ComputeHash kubeconfig context = ""
  · simp [h.1]
  · simp only []
    rw [if_neg h]
    simp

/-! ## Validation against the Go test suites

These pin the embedding to the repository test expectations
(internal/api/proxy_test.go, the injectKubectlContext test table) and to
the standard SHA-256 test vector. -/

set_option maxRecDepth 8000 in
/-- The embedded SHA-256 reproduces the standard test vector. -/
theorem sha256_abc_vector :
    String.mk (hexOfBytes (sha256 (utf8Bytes "abc"))) =
      "ba7816bf8f01cfea414140de5dae2223b00361a396177a9cb410ff61f20015ad" := by
  decide

/-- The port allocator reproduces the expectations of TestAssignPortForCluster. -/
theorem assignPort_go_tests :
    assignPortForCluster "e40f0908cbe45e0d" = 56207 ∧
    assignPortForCluster "03bbba57f539155e" = 48779 ∧
    assignPortForCluster "" = 8001 := by
  decide

/-- The context injector reproduces four rows of TestInjectKubectlContext,
including the chained-command row and the quoted-string limitation row. -/
theorem inject_go_tests :
    injectKubectlContext "kubectl get pods && kubectl get svc" "minikube" =
      "kubectl --context=minikube get pods && kubectl --context=minikube get svc" ∧
    injectKubectlContext "kubectl --context=foo get pods && kubectl get svc" "minikube" =
      "kubectl --context=foo get pods && kubectl get svc" ∧
    injectKubectlContext "echo 'kubectl is great' && ls" "minikube" =
      "echo 'kubectl --context=minikube is great' && ls" ∧
    injectKubectlContext "kubectl\tget\tpods" "minikube" =
      "kubectl --context=minikube\tget\tpods" := by
  decide

/-! ## C8: port allocator reference definition -/

theorem flatMap_utf8_ascii (l : List Char) (h : ∀ c ∈ l, c.toNat < 128) :
    l.flatMap utf8Char = l.map Char.toNat := by
  induction l with
  | nil => simp
  | cons c rest ih =>
      have hc : utf8Char c = [c.toNat] := by
        unfold utf8Char
        simp only []
        rw [if_pos (h c (List.mem_cons_self c rest))]
      simp only [List.flatMap_cons, List.map_cons, hc,
        ih (fun x hx => h x (List.mem_cons_of_mem _ hx))]
      rfl

/-- The first four UTF-8 bytes of a string whose first four characters are
ASCII are exactly those character values. -/
theorem utf8Bytes_take4 (s : String) (h : ∀ c ∈ s.data.take 4, c.toNat < 128) :
    (utf8Bytes s).take 4 = (s.data.take 4).map Char.toNat := by
  have hsplit : utf8Bytes s =
      (s.data.take 4).flatMap utf8Char ++ (s.data.drop 4).flatMap utf8Char := by
    unfold utf8Bytes
    rw [← List.flatMap_append, List.take_append_drop]
  rw [hsplit, flatMap_utf8_ascii _ h]
  rcases le_or_lt 4 s.data.length with h4 | h4
  · have hlen : ((s.data.take 4).map Char.toNat).length = 4 := by
      rw [List.length_map, List.length_take]
      omega
    exact List.take_left' hlen
  · have hdrop : s.data.drop 4 = [] := by
      apply List.drop_eq_nil_of_le
      omega
    have hlen2 : ((s.data.take 4).map Char.toNat).length ≤ 4 := by
      simp
    rw [hdrop]
    simp only [List.flatMap_nil, List.append_nil]
    exact List.take_of_length_le hlen2

/-- C8: for every nonempty hash the assigned port lies in [47824, 57823]
and, when the four leading characters are ASCII (in particular when they
are hex digits, which is what makes the spec phrase first-four-hex-
characters well defined), equals the spec formula 47824 + (n mod 10000);
the function is pure, so repeated calls agree by reflexivity; the empty
hash gets the fixed default 8001, below the deterministic range. -/
theorem c8_port_allocator (h : String) :
    (h ≠ "" → 47824 ≤ assignPortForCluster h ∧ assignPortForCluster h ≤ 57823) ∧
    (h ≠ "" → (∀ c ∈ h.data.take 4, c.toNat < 128) →
      assignPortForCluster h = specAssignPort h) ∧
    (h = "" → assignPortForCluster h = 8001 ∧ assignPortForCluster h < 47824) := by
  have key : ∀ n : Nat, 47824 ≤ 47824 + n % 10000 ∧ 47824 + n % 10000 ≤ 57823 := by
    intro n
    have := Nat.mod_lt n (show 0 < 10000 by omega)
    omega
  refine ⟨fun hne => ?_, fun hne hhex => ?_, fun he => ?_⟩
  · unfold assignPortForCluster
    rw [if_neg hne]
    exact key _
  · unfold assignPortForCluster specAssignPort
    rw [if_neg hne, if_neg hne]
    show 47824 + List.foldl _ 0 _ % 10000 = _
    rw [utf8Bytes_take4 h hhex, List.foldl_map]
    rfl
  · unfold assignPortForCluster
    rw [if_pos he]
    omega

/-- C8 witness: the theorem applied at the first hash of
TestAssignPortForCluster and at the empty hash. -/
theorem c8_port_allocator_witness :
    (47824 ≤ assignPortForCluster "e40f0908cbe45e0d" ∧
     assignPortForCluster "e40f0908cbe45e0d" ≤ 57823) ∧
    assignPortForCluster "e40f0908cbe45e0d" = specAssignPort "e40f0908cbe45e0d" ∧
    (assignPortForCluster "" = 8001 ∧ assignPortForCluster "" < 47824) := by
  refine ⟨(c8_port_allocator "e40f0908cbe45e0d").1 (by decide),
    (c8_port_allocator "e40f0908cbe45e0d").2.1 (by decide) (by decide),
    (c8_port_allocator "").2.2 rfl⟩

/-! ## C2: cluster isolation of the hash

ComputeHash hashes the bare concatenation kubeconfig ++ ":" ++ context, so
distinct pairs whose concatenations coincide - for instance a kubeconfig
ending in ":b" against a context starting with "b:" - produce the same
hash, and ValidateHash accepts the hash of one pair against the other.
The isolation property is therefore false as universally stated over
distinct pairs; what the code
guarantees is isolation between pairs whose hashes differ. -/

/-- C2 counterexample: the pairs (a:b, c) and (a, b:c) are distinct, yet
the hash computed from the first validates against the second, because
both concatenate to a:b:c. -/
theorem c2_counterexample :
    (("a:b", "c") : String × String) ≠ ("a", "b:c") ∧
    ValidateHash (ComputeHash "a:b" "c") "a" "b:c" = true := by
  constructor
  · decide
  · have heq : ComputeHash "a:b" "c" = ComputeHash "a" "b:c" := rfl
    rw [heq]
    exact ValidateHash_self "a" "b:c"

/-- C2 as amended: a hash computed from one pair never validates against a
pair whose computed hash differs; hash inequality, not pair inequality, is
the isolation boundary the code enforces. -/
theorem c2_cluster_isolation (k1 c1 k2 c2 : String)
    (hne : ComputeHash k1 c1 ≠ ComputeHash k2 c2) :
    ValidateHash (ComputeHash k1 c1) k2 c2 = false := by
  unfold ValidateHash
  by_cases hb : ComputeHash k1 c1 = "" ∧ ComputeHash k2 c2 = ""
  · exact absurd (hb.1.trans hb.2.symm) hne
  · show (if _ then _ else _) = false
    rw [if_neg hb]
    exact beq_eq_false_iff_ne.mpr hne

/-- C2 witness: the empty pair and the pair (a, empty) have different
hashes (the empty hash against a 16-character hash), and validation
rejects accordingly. -/
theorem c2_cluster_isolation_witness :
    ValidateHash (ComputeHash "" "") "a" "" = false := by
  apply c2_cluster_isolation
  intro hcontra
  exact ComputeHash_ne_empty "a" "" (by decide) hcontra.symm

/-! ## C10: the defensive ValidateHash in ShellHandler.Start is unreachable -/

/-- C10: every control path of the shell start handler that reaches the
final defensive ValidateHash check has already established that the
effective hash equals ComputeHash of the effective kubeconfig and context
- either the hash was just computed from them, or the strict equality
check rejected the request - so the validation-failed rejection is never
returned, for any request, registry content and session id. -/
theorem c10_shell_validation_unreachable (req : ShellStartRequest) (reg : Registry)
    (newId : String) : shellStart req reg newId ≠ .validationFailed := by
  unfold shellStart
  split
  · simp
  · split
    · simp
    · rename_i k c heq
      split
      · simp
      · rename_i hnomis
        have hv : ValidateHash (if req.clusterHash = "" then ComputeHash k c
            else req.clusterHash) k c = true := by
          by_cases hc : req.clusterHash = ""
          · rw [if_pos hc]
            exact ValidateHash_self k c
          · have heq : req.clusterHash = ComputeHash k c := by
              by_cases he : req.clusterHash = ComputeHash k c
              · exact he
              · exact absurd ⟨hc, he⟩ hnomis
            rw [if_neg hc, heq]
            exact ValidateHash_self k c
        rw [if_neg (by simp [hv])]
        simp

/-! ## C9: stopping an unknown session -/

/-- Manager.Stop never reports an error: a missing id is treated as
already stopped. -/
theorem managerStop_no_error (ss : List GoSession) (id : String) :
    (managerStop ss id).2 = none := by
  unfold managerStop
  cases managerGet ss id <;> rfl

/-- C9 counterexample: a stop request for an id absent from the store,
carrying no clusterHash parameter, answers 200, not the 404 the spec
table lists for a failed id lookup. -/
theorem c9_counterexample :
    managerGet [] "missing-session" = none ∧
    proxyStopHandler [] "missing-session" "" = .ok := by
  constructor
  · rfl
  · rfl

/-- C9 as amended: a stop request answers 404 exactly when it carries a
nonempty clusterHash parameter under which GetWithClusterValidation finds
nothing (unknown id, or a stored hash that differs); without the
parameter the stop is idempotent and answers 200 even for an unknown id,
because Manager.Stop treats a missing session as already stopped. -/
theorem c9_stop_unknown_session (ss : List GoSession) (id hp : String) :
    (hp ≠ "" → GetWithClusterValidation ss id hp = none →
      proxyStopHandler ss id hp = .notFound) ∧
    (hp ≠ "" → ∀ s, GetWithClusterValidation ss id hp = some s →
      proxyStopHandler ss id hp = .ok) ∧
    (hp = "" → proxyStopHandler ss id hp = .ok) := by
  refine ⟨fun hne hnone => ?_, fun hne s hs => ?_, fun he => ?_⟩
  · unfold proxyStopHandler
    rw [if_pos hne, hnone]
  · unfold proxyStopHandler
    rw [if_pos hne, hs, managerStop_no_error]
  · unfold proxyStopHandler
    rw [if_neg (by simp [he]), managerStop_no_error]

/-- C9 witness: the amended theorem applied to a store holding one proxy
session: a stop for an unknown id with the session hash answers 404, and
a stop for the known id with its hash answers 200. -/
theorem c9_stop_unknown_session_witness :
    proxyStopHandler [⟨"sid1", .proxy, .running, 56207, "prod", "kc", "h1"⟩]
      "other-id" "h1" = .notFound ∧
    proxyStopHandler [⟨"sid1", .proxy, .running, 56207, "prod", "kc", "h1"⟩]
      "sid1" "h1" = .ok := by
  constructor
  · exact (c9_stop_unknown_session _ "other-id" "h1").1 (by decide) (by decide)
  · exact (c9_stop_unknown_session _ "sid1" "h1").2.1 (by decide)
      ⟨"sid1", .proxy, .running, 56207, "prod", "kc", "h1"⟩ (by decide)

/-! ## C6: the synchronous exec timeout surface

The 504 branch of Execute tests the deadline only after the ExitError
branch.  When the deadline fires while the child runs, CommandContext
kills the child and CombinedOutput reports that death as an ExitError
with code -1, so the handler takes the ExitError branch and answers 200
with exit code -1 and no error field; the 504 branch is reachable only
for errors that are not ExitErrors.  This contradicts the spec (504 with
an error field) and the intent visible in the code itself, which logs the
deadline branch as the timeout case. -/

/-- C6: at the failing input of spec scenario S6 (a command still running when the
deadline fires, partial output o, request timeout 1 second), the handler
answers 200 with exit code -1 and no error field instead of the specified
504; the 504 shape is produced only when the error is not an ExitError. -/
theorem c6_exec_timeout_code_bug :
    execDecision 1 (timeoutObservation "partial") =
      ⟨200, "partial", -1, none⟩ ∧
    (execDecision 1 (timeoutObservation "partial")).status ≠ 504 ∧
    execDecision 1 ⟨"partial", some (.otherError "ctx"), true⟩ =
      ⟨504, "partial", -1, some "Command timed out after 1 seconds"⟩ := by
  refine ⟨rfl, by decide, rfl⟩

/-! ## C5: registry resolution for hash-only requests

The shell, port-forward and legacy exec start handlers resolve a request
carrying only a hash through the registry and reject a registry miss with
the resend-kubeconfig-and-context 400.  The proxy start handler performs
no registry lookup at all: a hash-only request falls into its strict
equality check against ComputeHash of the empty pair, which is the empty
string, and is rejected with the hash-mismatch 400 whether or not the
hash is registered. -/

theorem resolve_hashonly (reg : Registry) (hash : String) (hne : hash ≠ "") :
    resolveFromRegistry "" "" hash reg =
      match registryLookup reg hash with
      | none => none
      | some kc => some kc := by
  unfold resolveFromRegistry
  rw [if_pos ⟨rfl, rfl, hne⟩]

theorem resolve_idem (reg : Registry) (hash k c : String)
    (hlook : registryLookup reg hash = some (k, c)) :
    resolveFromRegistry k c hash reg = some (k, c) := by
  unfold resolveFromRegistry
  by_cases hb : k = "" ∧ c = "" ∧ hash ≠ ""
  · rw [if_pos hb, hlook]
  · rw [if_neg hb]

/-- C5 counterexample: a proxy start request carrying only a cluster hash
is answered with the 400 hash-mismatch error (expected hash the empty
string), not resolved through the registry and not answered with the
registry-miss message; the handler does not consult the registry at all
(it is not an input of the proxy start path). -/
theorem c5_counterexample :
    proxyStart ⟨0, "", "", "aaaaaaaaaaaaaaaa"⟩ [] "sid" =
      .hashMismatch "" "aaaaaaaaaaaaaaaa" := by
  decide

/-- C5 as amended: the shell, port-forward and legacy exec start handlers
resolve hash-only requests through the registry - a miss is the
registry-miss 400 telling the caller to resend kubeconfig and context,
and a hit continues exactly as if the caller had sent the registered
kubeconfig and context - while the proxy start handler rejects every
hash-only request with the 400 hash-mismatch error, never consulting the
registry. -/
theorem c5_registry_resolution (reg : Registry) (hash newId : String) (hne : hash ≠ "") :
    (registryLookup reg hash = none →
      (∀ cmd, cmd ≠ "" →
        shellStart ⟨cmd, "", "", hash⟩ reg newId = .registryMiss) ∧
      (∀ ns rt name sp lp, ns ≠ "" → name ≠ "" → sp ≠ "" → lp ≠ "" →
        pfStart ⟨ns, rt, name, sp, lp, "", "", hash⟩ reg newId = .registryMiss) ∧
      (∀ ns pod cont cmd, ns ≠ "" → pod ≠ "" → cmd ≠ [] →
        execSessionStart ⟨ns, pod, cont, cmd, "", "", hash⟩ reg newId = .registryMiss)) ∧
    (∀ k c, registryLookup reg hash = some (k, c) →
      (∀ cmd, shellStart ⟨cmd, "", "", hash⟩ reg newId =
        shellStart ⟨cmd, k, c, hash⟩ reg newId) ∧
      (∀ ns rt name sp lp, pfStart ⟨ns, rt, name, sp, lp, "", "", hash⟩ reg newId =
        pfStart ⟨ns, rt, name, sp, lp, k, c, hash⟩ reg newId) ∧
      (∀ ns pod cont cmd, execSessionStart ⟨ns, pod, cont, cmd, "", "", hash⟩ reg newId =
        execSessionStart ⟨ns, pod, cont, cmd, k, c, hash⟩ reg newId)) ∧
    (∀ (ss : List GoSession) (p : Int) (nid : String),
      proxyStart ⟨p, "", "", hash⟩ ss nid = .hashMismatch "" hash) := by
  have hres : resolveFromRegistry "" "" hash reg =
      match registryLookup reg hash with
      | none => none
      | some kc => some kc := resolve_hashonly reg hash hne
  refine ⟨fun hmiss => ?_, fun k c hhit => ?_, fun ss p nid => ?_⟩
  · rw [hmiss] at hres
    refine ⟨fun cmd hcmd => ?_, fun ns rt name sp lp h1 h2 h3 h4 => ?_,
      fun ns pod cont cmd h1 h2 h3 => ?_⟩
    · unfold shellStart
      rw [if_neg hcmd, hres]
    · unfold pfStart
      rw [if_neg (by simp [h1, h2, h3, h4]), hres]
    · unfold execSessionStart
      rw [if_neg (by simp [h1, h2, h3]), hres]
  · rw [hhit] at hres
    have hres2 := resolve_idem reg hash k c hhit
    refine ⟨fun cmd => ?_, fun ns rt name sp lp => ?_, fun ns pod cont cmd => ?_⟩
    · unfold shellStart
      rw [hres, hres2]
    · unfold pfStart
      rw [hres, hres2]
    · unfold execSessionStart
      rw [hres, hres2]
  · unfold proxyStart
    have : ComputeHash "" "" = "" := rfl
    rw [if_pos ⟨hne, by rw [this]; exact hne⟩, this]

/-- C5 witness: the amended theorem applied to a one-entry registry: an
unregistered hash-only shell request misses, a registered hash-only shell
request continues as the filled-in request, and a registered hash-only
proxy start is still the hash-mismatch 400. -/
theorem c5_registry_resolution_witness :
    shellStart ⟨"ls", "", "", "h2"⟩ [("h1", "kc", "prod")] "sid" = .registryMiss ∧
    shellStart ⟨"ls", "", "", "h1"⟩ [("h1", "kc", "prod")] "sid" =
      shellStart ⟨"ls", "kc", "prod", "h1"⟩ [("h1", "kc", "prod")] "sid" ∧
    proxyStart ⟨0, "", "", "h1"⟩ [] "sid" = .hashMismatch "" "h1" := by
  refine ⟨((c5_registry_resolution [("h1", "kc", "prod")] "h2" "sid" (by decide)).1
      (by decide)).1 "ls" (by decide),
    (((c5_registry_resolution [("h1", "kc", "prod")] "h1" "sid" (by decide)).2.1
      "kc" "prod" (by decide)).1 "ls"),
    (c5_registry_resolution [] "h1" "sid" (by decide)).2.2 [] 0 "sid"⟩

/-! ## C7: shell context injection

The injector is unchanged not only when the command mentions --context or
the context is empty (the two early returns), but also in the third,
vacuous case the spec sentence omits: when the command has no occurrence of the
word kubectl followed by whitespace there is nothing to rewrite, and the
regexp replacement returns the input unchanged.  Whenever a match exists
the rewrite inserts at least one flag and strictly lengthens the command,
so it never equals the input. -/

theorem injectGo_eq_of_no_match (ctx : String) :
    ∀ (fuel : Nat) (prevW : Bool) (l : List Char),
      hasKubectlMatch fuel prevW l = false → injectGo ctx fuel prevW l = l := by
  intro fuel
  induction fuel with
  | zero => intro prevW l _; rfl
  | succ n ih =>
      intro prevW l hm
      cases l with
      | nil => rfl
      | cons c rest =>
          unfold hasKubectlMatch at hm
          rw [Bool.or_eq_false_iff] at hm
          unfold injectGo
          rw [if_neg (by simp [hm.1]), ih _ _ hm.2]

theorem injectGo_length_ge (ctx : String) :
    ∀ (fuel : Nat) (prevW : Bool) (l : List Char),
      l.length ≤ (injectGo ctx fuel prevW l).length := by
  intro fuel
  induction fuel with
  | zero => intro _ l; exact Nat.le_refl _
  | succ n ih =>
      intro prevW l
      cases l with
      | nil => exact Nat.le_refl _
      | cons c rest =>
          unfold injectGo
          by_cases hm : kubectlMatchAt prevW (c :: rest) = true
          · rw [if_pos hm]
            have htake : List.take 7 (c :: rest) = "kubectl".data := by
              unfold kubectlMatchAt at hm
              simp only [Bool.and_eq_true, beq_iff_eq] at hm
              exact hm.1.2
            have hlen7 : 7 ≤ (c :: rest).length := by
              have h1 := congrArg List.length htake
              rw [List.length_take] at h1
              have h2 : ("kubectl".data).length = 7 := rfl
              omega
            have hsplit7 : (c :: rest).length = 7 + ((c :: rest).drop 7).length := by
              rw [List.length_drop]
              omega
            have hsptail : (((c :: rest).drop 7).takeWhile isGoSpace).length +
                (((c :: rest).drop 7).dropWhile isGoSpace).length =
                ((c :: rest).drop 7).length := by
              rw [← List.length_append, List.takeWhile_append_dropWhile]
            have hrec := ih false (((c :: rest).drop 7).dropWhile isGoSpace)
            simp only [List.length_append, String.data, List.length_cons] at *
            omega
          · rw [if_neg hm]
            have := ih (isWordChar c) rest
            simp only [List.length_cons]
            omega

theorem injectGo_length_gt (ctx : String) :
    ∀ (fuel : Nat) (prevW : Bool) (l : List Char),
      hasKubectlMatch fuel prevW l = true →
      l.length < (injectGo ctx fuel prevW l).length := by
  intro fuel
  induction fuel with
  | zero => intro _ _ hm; exact absurd hm (by simp [hasKubectlMatch])
  | succ n ih =>
      intro prevW l hm
      cases l with
      | nil => exact absurd hm (by simp [hasKubectlMatch])
      | cons c rest =>
          unfold injectGo
          by_cases hmat : kubectlMatchAt prevW (c :: rest) = true
          · rw [if_pos hmat]
            have htake : List.take 7 (c :: rest) = "kubectl".data := by
              unfold kubectlMatchAt at hmat
              simp only [Bool.and_eq_true, beq_iff_eq] at hmat
              exact hmat.1.2
            have hlen7 : 7 ≤ (c :: rest).length := by
              have h1 := congrArg List.length htake
              rw [List.length_take] at h1
              have h2 : ("kubectl".data).length = 7 := rfl
              omega
            have hsplit7 : (c :: rest).length = 7 + ((c :: rest).drop 7).length := by
              rw [List.length_drop]
              omega
            have hsptail : (((c :: rest).drop 7).takeWhile isGoSpace).length +
                (((c :: rest).drop 7).dropWhile isGoSpace).length =
                ((c :: rest).drop 7).length := by
              rw [← List.length_append, List.takeWhile_append_dropWhile]
            have hrec := injectGo_length_ge ctx n false
              (((c :: rest).drop 7).dropWhile isGoSpace)
            simp only [List.length_append, String.data, List.length_cons] at *
            omega
          · rw [if_neg hmat]
            unfold hasKubectlMatch at hm
            rw [Bool.or_eq_true] at hm
            have hrest : hasKubectlMatch n (isWordChar c) rest = true := by
              cases hm with
              | inl h => exact absurd h hmat
              | inr h => exact h
            have := ih (isWordChar c) rest hrest
            simp only [List.length_cons]
            omega

/-- C7 counterexample: a command with no kubectl occurrence at all is
returned unchanged although it does not contain --context and the context
is nonempty, against the only-if direction of the spec equivalence. -/
theorem c7_counterexample :
    injectKubectlContext "echo hello && ls -la" "minikube" = "echo hello && ls -la" ∧
    containsSeq "--context".data "echo hello && ls -la".data = false ∧
    "minikube" ≠ "" := by
  refine ⟨by decide, by decide, by decide⟩

/-- C7 as amended: the injector returns the command unchanged if and only
if the context is empty, or the command already contains --context, or the
command has no occurrence of the word kubectl (at a word boundary)
followed by whitespace; in every other case the rewrite strictly extends
the command, and by construction it rewrites exactly the scanner matches. -/
theorem c7_inject_unchanged_iff (cmd ctx : String) :
    injectKubectlContext cmd ctx = cmd ↔
      (ctx = "" ∨ containsSeq "--context".data cmd.data = true ∨
       hasKubectlMatch cmd.data.length false cmd.data = false) := by
  unfold injectKubectlContext
  by_cases h1 : ctx = ""
  · rw [if_pos h1]
    simp [h1]
  · rw [if_neg h1]
    by_cases h2 : containsSeq "--context".data cmd.data = true
    · rw [if_pos h2]
      simp [h2]
    · rw [if_neg h2]
      constructor
      · intro he
        right
        right
        by_contra hm
        rw [Bool.not_eq_false] at hm
        have hlt := injectGo_length_gt ctx cmd.data.length false cmd.data hm
        have hdata : injectGo ctx cmd.data.length false cmd.data = cmd.data :=
          congrArg String.data he
        rw [hdata] at hlt
        omega
      · intro hor
        rcases hor with h | h | h
        · exact absurd h h1
        · exact absurd h h2
        · rw [injectGo_eq_of_no_match ctx _ _ _ h]

/-- C7 witness: both directions of the amended equivalence at concrete
inputs: a kubectl command is rewritten (not unchanged), and a command
without kubectl is unchanged. -/
theorem c7_inject_unchanged_iff_witness :
    injectKubectlContext "echo hi" "minikube" = "echo hi" ∧
    ¬ injectKubectlContext "kubectl get pods" "minikube" = "kubectl get pods" := by
  constructor
  · exact (c7_inject_unchanged_iff "echo hi" "minikube").mpr (Or.inr (Or.inr (by decide)))
  · intro he
    have := (c7_inject_unchanged_iff "kubectl get pods" "minikube").mp he
    rcases this with h | h | h
    · exact absurd h (by decide)
    · exact absurd h (by decide)
    · exact absurd h (by decide)

/-! ## C1: reverse-proxy cluster isolation -/

theorem selectProxySession_some (ss : List GoSession) (H : String) (s : GoSession)
    (h : selectProxySession ss H = some s) :
    s ∈ ss ∧ s.sessionType = .proxy ∧ s.status = .running ∧ s.clusterHash = H := by
  unfold selectProxySession at h
  have hp := List.find?_some h
  have hmem := List.mem_of_find?_eq_some h
  unfold FindByClusterHash at hmem
  rw [List.mem_filter] at hmem
  simp only [Bool.and_eq_true, beq_iff_eq] at hp
  exact ⟨hmem.1, hp.1.1, hp.1.2, hp.2⟩

theorem selectProxySession_none (ss : List GoSession) (H : String)
    (h : ∀ s ∈ ss, ¬(s.sessionType = .proxy ∧ s.status = .running ∧ s.clusterHash = H)) :
    selectProxySession ss H = none := by
  unfold selectProxySession
  rw [List.find?_eq_none]
  intro x hx
  unfold FindByClusterHash at hx
  rw [List.mem_filter] at hx
  intro hpx
  simp only [Bool.and_eq_true, beq_iff_eq] at hpx
  exact h x hx.1 ⟨hpx.1.1, hpx.1.2, hpx.2⟩

/-- C1: (i) whenever the router forwards, the upstream URL is built from
the port of a session of the store that is a running proxy session whose
stored hash equals the requested hash, with the stripped target path and
the raw query appended; (ii) when no running proxy session with the
requested hash exists, the router answers with the structured 503 body
carrying the error, clusterHash, action and reason fields and forwards
nothing; (iii) the selected session always bears the requested hash, so
the final pre-forward re-check holds and its 403 branch (which by
construction forwards nothing) is pure defense in depth. -/
theorem c1_route_cluster_isolation (ss : List GoSession) (H urlPath rawQuery : String) :
    (∀ p url, routeProxy ss H urlPath rawQuery = .forward p url →
      (∃ s, s ∈ ss ∧ s.sessionType = .proxy ∧ s.status = .running ∧
        s.clusterHash = H ∧ s.port = p) ∧
      url = "http://localhost:" ++ toString p ++ routeTargetPath H urlPath ++
        (if rawQuery = "" then "" else "?" ++ rawQuery)) ∧
    ((∀ s ∈ ss, ¬(s.sessionType = .proxy ∧ s.status = .running ∧ s.clusterHash = H)) →
      routeProxy ss H urlPath rawQuery = .unavailable (mk503Body H)) ∧
    (∀ s, selectProxySession ss H = some s → s.clusterHash = H) := by
  refine ⟨fun p url hf => ?_, fun hnone => ?_, fun s hs => (selectProxySession_some ss H s hs).2.2.2⟩
  · unfold routeProxy at hf
    cases hsel : selectProxySession ss H with
    | none =>
        rw [hsel] at hf
        exact absurd hf (by simp)
    | some s =>
        have hprops := selectProxySession_some ss H s hsel
        rw [hsel] at hf
        simp only [if_neg (show ¬(s.clusterHash ≠ H) from fun hc => hc hprops.2.2.2),
          RouteResult.forward.injEq] at hf
        exact ⟨⟨s, hprops.1, hprops.2.1, hprops.2.2.1, hprops.2.2.2, hf.1⟩,
          by rw [← hf.1]; exact hf.2.symm⟩
  · unfold routeProxy
    rw [selectProxySession_none ss H hnone]

/-- C1 witness: the theorem applied at concrete stores: the forwarded URL
for a one-session store is exactly the localhost URL on that session
port, and the empty store answers the structured 503. -/
theorem c1_route_cluster_isolation_witness :
    "http://localhost:56207/api/v1/pods" =
      "http://localhost:" ++ toString 56207 ++
        routeTargetPath "h1" "/proxy/h1/api/v1/pods" ++ "" ∧
    routeProxy [] "h1" "/proxy/h1/api/v1/pods" "" = .unavailable (mk503Body "h1") := by
  constructor
  · have h := ((c1_route_cluster_isolation
      [⟨"sid", .proxy, .running, 56207, "prod", "kc", "h1"⟩]
      "h1" "/proxy/h1/api/v1/pods" "").1 56207 "http://localhost:56207/api/v1/pods"
      (by decide)).2
    simpa using h
  · exact (c1_route_cluster_isolation [] "h1" "/proxy/h1/api/v1/pods" "").2.1
      (by simp)

/-! ## C4: proxy reuse discipline -/

theorem findReusableProxy_some (ss : List GoSession) (hash ctx : String) (s : GoSession)
    (h : findReusableProxy ss hash ctx = some s) :
    s ∈ ss ∧ s.sessionType = .proxy ∧ s.status = .running ∧
    s.clusterHash = hash ∧ s.context = ctx := by
  unfold findReusableProxy at h
  have hp := List.find?_some h
  have hmem := List.mem_of_find?_eq_some h
  unfold FindByClusterHash at hmem
  rw [List.mem_filter] at hmem
  simp only [Bool.and_eq_true, beq_iff_eq] at hp hmem
  exact ⟨hmem.1, hp.1.1, hp.1.2, hmem.2, hp.2⟩

/-- C4: (i) whenever the proxy start handler reuses a session, that
session is in the store, is a running proxy session, bears the requested
hash, and its stored context equals the request context - a session with
the same hash but another context is never reused - and the response is
its id, port and status unchanged; (ii) conversely, for every request
passing the identification step, if the store holds a running proxy
session with the requested hash and the request context, the handler
reuses one such session and answers its id, port and status, creating no
session and launching no process (only the launched outcome does). -/
theorem c4_proxy_reuse (req : ProxyStartRequest) (ss : List GoSession) (newId : String) :
    (∀ s resp, proxyStart req ss newId = .reused s resp →
      s ∈ ss ∧ s.sessionType = .proxy ∧ s.status = .running ∧
      s.clusterHash = effectiveHash req ∧ s.context = req.context ∧
      resp = ⟨s.id, s.port, effectiveHash req, statusString s.status⟩) ∧
    ((req.clusterHash = "" ∨ req.clusterHash = ComputeHash req.kubeconfig req.context) →
     (∃ s ∈ ss, s.sessionType = .proxy ∧ s.status = .running ∧
       s.clusterHash = effectiveHash req ∧ s.context = req.context) →
     ∃ s, proxyStart req ss newId =
       .reused s ⟨s.id, s.port, effectiveHash req, statusString s.status⟩) := by
  constructor
  · intro s resp h
    unfold proxyStart at h
    split at h
    · exact absurd h (by simp)
    · cases hfind : findReusableProxy ss (effectiveHash req) req.context with
      | none =>
          simp only [hfind] at h
          exact absurd h (by simp)
      | some s1 =>
          simp only [hfind, ProxyStartResult.reused.injEq] at h
          obtain ⟨hs, hresp⟩ := h
          have hprops := findReusableProxy_some ss (effectiveHash req) req.context s1 hfind
          rw [← hs]
          exact ⟨hprops.1, hprops.2.1, hprops.2.2.1, hprops.2.2.2.1, hprops.2.2.2.2,
            hresp.symm⟩
  · intro hvalid hex
    have hncond : ¬(req.clusterHash ≠ "" ∧
        req.clusterHash ≠ ComputeHash req.kubeconfig req.context) := by
      intro hc
      cases hvalid with
      | inl e => exact hc.1 e
      | inr e => exact hc.2 e
    obtain ⟨s0, hs0mem, hs0t, hs0st, hs0h, hs0c⟩ := hex
    cases hfind : findReusableProxy ss (effectiveHash req) req.context with
    | none =>
        unfold findReusableProxy at hfind
        rw [List.find?_eq_none] at hfind
        have hs0filter : s0 ∈ FindByClusterHash ss (effectiveHash req) := by
          unfold FindByClusterHash
          rw [List.mem_filter]
          exact ⟨hs0mem, by simp [hs0h]⟩
        exact absurd (by simp [hs0t, hs0st, hs0c]) (hfind s0 hs0filter)
    | some s1 =>
        refine ⟨s1, ?_⟩
        unfold proxyStart
        rw [if_neg hncond]
        simp only [hfind]

/-- C4 witness: the handler applied to a store holding one running proxy
session with the request hash and context reuses it with its id, port and
status; the conclusions of the theorem hold at that instance. -/
theorem c4_proxy_reuse_witness :
    (⟨"sid", .proxy, .running, 8001, "", "", ""⟩ : GoSession) ∈
      [(⟨"sid", .proxy, .running, 8001, "", "", ""⟩ : GoSession)] ∧
    (⟨"sid", .proxy, .running, 8001, "", "", ""⟩ : GoSession).context =
      (⟨0, "", "", ""⟩ : ProxyStartRequest).context ∧
    (⟨"sid", 8001, "", "running"⟩ : ProxyStartResponse) =
      ⟨"sid", 8001, effectiveHash ⟨0, "", "", ""⟩, statusString .running⟩ := by
  have h := (c4_proxy_reuse ⟨0, "", "", ""⟩
    [⟨"sid", .proxy, .running, 8001, "", "", ""⟩] "n").1
    ⟨"sid", .proxy, .running, 8001, "", "", ""⟩ ⟨"sid", 8001, "", "running"⟩
    (by decide)
  exact ⟨h.1, h.2.2.2.2.1, h.2.2.2.2.2⟩

/-! ## C3: deterministic port assignment on new proxy launch -/

/-- C3: whenever the proxy start handler launches a new proxy (no running
session was reused), the created session stores the deterministic port of
the effective hash, the kubectl proxy argument list carries exactly that
port, and the response returns it, with the request port field (zero or
not) playing no role in any of the three.  The session is the freshly
created one with the request binding. -/
theorem c3_deterministic_port (req : ProxyStartRequest) (ss : List GoSession)
    (newId : String) (sess : GoSession) (args preempted : List String)
    (resp : ProxyStartResponse)
    (h : proxyStart req ss newId = .launched sess args preempted resp) :
    sess.port = assignPortForCluster (effectiveHash req) ∧
    resp = ⟨newId, assignPortForCluster (effectiveHash req), effectiveHash req, "running"⟩ ∧
    args = ["proxy"] ++ (if req.context ≠ "" then ["--context", req.context] else []) ++
      ["--port", toString (assignPortForCluster (effectiveHash req))] ∧
    sess = ⟨newId, .proxy, .running, assignPortForCluster (effectiveHash req),
      req.context, req.kubeconfig, effectiveHash req⟩ := by
  unfold proxyStart at h
  split at h
  · exact absurd h (by simp)
  · cases hfind : findReusableProxy ss (effectiveHash req) req.context with
    | some s1 =>
        simp only [hfind] at h
        exact absurd h (by simp)
    | none =>
        simp only [hfind, ProxyStartResult.launched.injEq] at h
        obtain ⟨hsess, hargs, hpre, hresp⟩ := h
        subst hsess
        exact ⟨rfl, hresp.symm, hargs.symm, rfl⟩

/-- C3 witness: a request carrying kubeconfig kc, its true hash and the
explicit nonzero port 9999 launches on the deterministic port 52124 of
the hash, stores it in the session, passes it to kubectl proxy and
returns it; the request port 9999 is ignored. -/
theorem c3_deterministic_port_witness :
    (⟨"n", .proxy, .running, 52124, "", "kc", "ad0c79fb37d3b416"⟩ : GoSession).port =
      assignPortForCluster (effectiveHash ⟨9999, "kc", "", "ad0c79fb37d3b416"⟩) ∧
    (⟨"n", 52124, "ad0c79fb37d3b416", "running"⟩ : ProxyStartResponse) =
      ⟨"n", assignPortForCluster (effectiveHash ⟨9999, "kc", "", "ad0c79fb37d3b416"⟩),
        effectiveHash ⟨9999, "kc", "", "ad0c79fb37d3b416"⟩, "running"⟩ ∧
    (["proxy", "--port", "52124"] : List String) =
      ["proxy"] ++
      (if (⟨9999, "kc", "", "ad0c79fb37d3b416"⟩ : ProxyStartRequest).context ≠ ""
        then ["--context", (⟨9999, "kc", "", "ad0c79fb37d3b416"⟩ : ProxyStartRequest).context]
        else []) ++
      ["--port", toString (assignPortForCluster
        (effectiveHash ⟨9999, "kc", "", "ad0c79fb37d3b416"⟩))] := by
  have h := c3_deterministic_port ⟨9999, "kc", "", "ad0c79fb37d3b416"⟩ [] "n"
    ⟨"n", .proxy, .running, 52124, "", "kc", "ad0c79fb37d3b416"⟩
    ["proxy", "--port", "52124"] []
    ⟨"n", 52124, "ad0c79fb37d3b416", "running"⟩
    (by decide)
  exact ⟨h.1, h.2.1, h.2.2.1⟩
